import Mathlib

/-!
Formal model of the core pipeline of `src/png_bob_animator.py`
(class `PNGBobAnimator`).

Conventions of the shallow embedding:
 - Python integers are modelled as `ℤ` (they are unbounded);
 - Python floats are modelled as `ℝ` (the idealized real-number
   semantics of the arithmetic the code writes down);
 - PIL images are modelled as a structure holding integer dimensions
   and a total pixel function returning RGBA channel values;
 - the animator object is a structure holding exactly the mutable
   fields that the modelled methods read and write, and each method
   becomes a state-passing function;
 - external PIL operations that can raise (palette construction,
   quantization, decoding a file) are modelled as explicit
   `Except`-valued inputs, so the try/except structure of the code
   becomes a total function on those inputs.
-/

/-- Python `int(x)` applied to a float: truncation toward zero. -/
noncomputable def pyInt (x : ℝ) : ℤ := if 0 ≤ x then ⌊x⌋ else ⌈x⌉

/-- Line 82 of `png_bob_animator.py`:
`angle = (frame_index / self.frame_count) * 2 * math.pi`. -/
noncomputable def bobAngle (frame_count frame_index : ℤ) : ℝ :=
  ((frame_index : ℝ) / (frame_count : ℝ)) * 2 * Real.pi

/-- Line 83 of `png_bob_animator.py`:
`bob_offset = int(math.sin(angle) * self.bob_height)`. -/
noncomputable def bobOffset (frame_count bob_height frame_index : ℤ) : ℤ :=
  pyInt (Real.sin (bobAngle frame_count frame_index) * (bob_height : ℝ))

theorem pyInt_zero : pyInt 0 = 0 := by
  simp [pyInt]

theorem pyInt_abs_le (x : ℝ) (h : ℤ) (hh : 0 ≤ h) (hx : |x| ≤ (h : ℝ)) :
    |pyInt x| ≤ h := by
  rcases abs_le.mp hx with ⟨hlo, hhi⟩
  by_cases hx0 : 0 ≤ x
  · rw [pyInt, if_pos hx0, abs_of_nonneg (Int.floor_nonneg.mpr hx0)]
    calc ⌊x⌋ ≤ ⌊(h : ℝ)⌋ := Int.floor_le_floor hhi
    _ = h := Int.floor_intCast h
  · push_neg at hx0
    rw [pyInt, if_neg (not_le.mpr hx0)]
    have h1 : ⌈x⌉ ≤ 0 := Int.ceil_le.mpr (by exact_mod_cast hx0.le)
    have h2 : (-h : ℤ) ≤ ⌈x⌉ := by
      have hc : ((-h : ℤ) : ℝ) ≤ (⌈x⌉ : ℝ) := by
        push_cast
        linarith [Int.le_ceil x]
      exact_mod_cast hc
    rw [abs_of_nonpos h1]
    omega

/-- C5: the motion offset is bounded by the bob height: for every
frameCount ≥ 1, bobHeight ≥ 0 and every frameIndex,
`|offset(frameIndex, frameCount, bobHeight)| ≤ bobHeight`. -/
theorem bobOffset_abs_le (frame_count bob_height frame_index : ℤ)
    (hn : 1 ≤ frame_count) (hh : 0 ≤ bob_height) :
    |bobOffset frame_count bob_height frame_index| ≤ bob_height := by
  apply pyInt_abs_le _ _ hh
  have hs : |Real.sin (bobAngle frame_count frame_index)| ≤ 1 :=
    abs_le.mpr ⟨Real.neg_one_le_sin _, Real.sin_le_one _⟩
  have hb : |(bob_height : ℝ)| = (bob_height : ℝ) :=
    abs_of_nonneg (by exact_mod_cast hh)
  calc |Real.sin (bobAngle frame_count frame_index) * (bob_height : ℝ)|
      = |Real.sin (bobAngle frame_count frame_index)| * |(bob_height : ℝ)| :=
        abs_mul _ _
    _ ≤ 1 * |(bob_height : ℝ)| := by
        apply mul_le_mul_of_nonneg_right hs (abs_nonneg _)
    _ = (bob_height : ℝ) := by rw [one_mul, hb]

theorem bobOffset_abs_le_witness : |bobOffset 30 10 7| ≤ 10 :=
  bobOffset_abs_le 30 10 7 (by norm_num) (by norm_num)

/-- C1 (amended): for every frameCount ≥ 1, bobHeight ≥ 0 and every
frameIndex, the motion model computes `angle = 2π · frameIndex / frameCount`
and returns the truncation toward zero (Python `int`) of
`sin(angle) · bobHeight` — not the rounding to nearest; at frameIndex 0 the
returned offset is exactly 0, and for frameCount = 1 the single frame
(index 0) has angle 0. -/
theorem bobOffset_formula (frame_count bob_height frame_index : ℤ)
    (hn : 1 ≤ frame_count) (hh : 0 ≤ bob_height) :
    bobAngle frame_count frame_index
        = 2 * Real.pi * (frame_index : ℝ) / (frame_count : ℝ)
      ∧ bobOffset frame_count bob_height frame_index
        = pyInt (Real.sin
            (2 * Real.pi * (frame_index : ℝ) / (frame_count : ℝ))
            * (bob_height : ℝ))
      ∧ bobOffset frame_count bob_height 0 = 0
      ∧ bobAngle 1 0 = 0 := by
  have hang : bobAngle frame_count frame_index
      = 2 * Real.pi * (frame_index : ℝ) / (frame_count : ℝ) := by
    unfold bobAngle
    ring
  refine ⟨hang, by rw [bobOffset, hang], ?_, by simp [bobAngle]⟩
  have h0 : bobAngle frame_count 0 = 0 := by simp [bobAngle]
  rw [bobOffset, h0, Real.sin_zero, zero_mul, pyInt_zero]

theorem bobOffset_formula_witness : bobOffset 30 10 0 = 0 :=
  (bobOffset_formula 30 10 0 (by norm_num) (by norm_num)).2.2.1

/-- C1 counterexample: at frameIndex 1, frameCount 5, bobHeight 10 the
code returns `int(sin(2π/5) · 10) = 9` (truncation toward zero), while
rounding `sin(2π/5) · 10 ≈ 9.51` as the claim states would give 10. -/
theorem bobOffset_not_round :
    bobOffset 5 10 1 = 9
      ∧ round (Real.sin (2 * Real.pi * 1 / 5) * 10) = 10 := by
  have hs5 : Real.sqrt 5 ^ 2 = 5 := Real.sq_sqrt (by norm_num)
  have hs5nn : (0 : ℝ) ≤ Real.sqrt 5 := Real.sqrt_nonneg 5
  have hs5lo : (2.23 : ℝ) ≤ Real.sqrt 5 := by nlinarith
  have hs5hi : Real.sqrt 5 ≤ 2.24 := by nlinarith
  have hcos : Real.cos (2 * (Real.pi / 5)) = (Real.sqrt 5 - 1) / 4 := by
    rw [Real.cos_two_mul, Real.cos_pi_div_five]
    linear_combination hs5 / 8
  have hpyth := Real.sin_sq_add_cos_sq (2 * (Real.pi / 5))
  rw [hcos] at hpyth
  have hsin_nn : 0 ≤ Real.sin (2 * (Real.pi / 5)) := by
    apply Real.sin_nonneg_of_nonneg_of_le_pi
    · positivity
    · nlinarith [Real.pi_pos]
  have hsin_lo : (0.95 : ℝ) ≤ Real.sin (2 * (Real.pi / 5)) := by
    nlinarith [hpyth, hsin_nn, hs5lo]
  have hsin_hi : Real.sin (2 * (Real.pi / 5)) < 1 := by
    nlinarith [hpyth, hsin_nn, hs5hi]
  have hang : bobAngle 5 1 = 2 * (Real.pi / 5) := by
    unfold bobAngle
    push_cast
    ring
  constructor
  · rw [bobOffset, hang]
    have hnn : (0 : ℝ) ≤ Real.sin (2 * (Real.pi / 5)) * ((10 : ℤ) : ℝ) := by
      push_cast
      nlinarith
    rw [pyInt, if_pos hnn]
    rw [Int.floor_eq_iff]
    push_cast
    constructor
    · nlinarith
    · nlinarith
  · have he : 2 * Real.pi * 1 / 5 = 2 * (Real.pi / 5) := by ring
    rw [he, round_eq, Int.floor_eq_iff]
    push_cast
    constructor
    · nlinarith
    · nlinarith

/-- One RGBA pixel; channel values are small naturals (0..255). -/
structure RGBA where
  r : ℕ
  g : ℕ
  b : ℕ
  a : ℕ
deriving DecidableEq

/-- The fully transparent pixel `(0, 0, 0, 0)` used for the canvas fill. -/
def transparent : RGBA := ⟨0, 0, 0, 0⟩

/-- A PIL image, modelled as integer dimensions plus a total pixel map
giving the RGBA view of each coordinate (x to the right, y downward,
top-left origin). -/
structure Img where
  width : ℤ
  height : ℤ
  pix : ℤ → ℤ → RGBA

/-- PIL MULDIV255 step used by paste-with-mask blending:
`(v*m+128)` followed by the exact divide-by-255 shift trick. -/
def mulDiv255 (v m : ℕ) : ℕ :=
  let t := v * m + 128
  (t / 256 + t) / 256

/-- One channel of PIL paste-with-mask blending: destination weighted by
`255 - mask`, source weighted by `mask`. -/
def blendChan (m d s : ℕ) : ℕ := mulDiv255 d (255 - m) + mulDiv255 s m

/-- PIL `canvas.paste(img, box, img)` per-pixel action: the source image
doubles as the mask, so every band (alpha included) is blended by the
source alpha. -/
def pastePixel (s d : RGBA) : RGBA :=
  ⟨blendChan s.a d.r s.r, blendChan s.a d.g s.g,
   blendChan s.a d.b s.b, blendChan s.a d.a s.a⟩

/-- The mutable animator state: exactly the fields of
`PNGBobAnimator.__init__` that the modelled methods read or write. -/
structure Animator where
  frame_count : ℤ
  bob_height : ℤ
  frame_duration : ℤ
  use_multiprocessing : Bool
  use_numpy_acceleration : Bool
  optimize_gif : Bool
  max_workers : ℤ
  frames : List Img

/-- Lines 42-50 of `__init__`: default parameters; `max_workers` defaults
to `min(multiprocessing.cpu_count(), 8)`, with the host cpu count passed
in as `cpuCount`. The frame list starts empty. -/
def initAnimator (cpuCount : ℤ) : Animator :=
  { frame_count := 30
    bob_height := 10
    frame_duration := 80
    use_multiprocessing := true
    use_numpy_acceleration := true
    optimize_gif := true
    max_workers := min cpuCount 8
    frames := [] }

/-- Lines 70-97, `create_frame`: compute the bob offset, build a
transparent canvas of size `(width+20, height+2*bob_height+20)`, and paste
the source centered horizontally at `img_x = (canvas_width - width) // 2`
and vertically at `img_y = 10 + bob_height - bob_offset`, using the source
itself as the paste mask. -/
noncomputable def create_frame (st : Animator) (img : Img) (frame_index : ℤ) : Img :=
  let bob_offset := bobOffset st.frame_count st.bob_height frame_index
  let canvas_width := img.width + 20
  let canvas_height := img.height + st.bob_height * 2 + 20
  let img_x := Int.fdiv (canvas_width - img.width) 2
  let img_y := 10 + st.bob_height - bob_offset
  { width := canvas_width
    height := canvas_height
    pix := fun x y =>
      if img_x ≤ x ∧ x < img_x + img.width ∧ img_y ≤ y ∧ y < img_y + img.height
      then pastePixel (img.pix (x - img_x) (y - img_y)) transparent
      else transparent }

/-- C2: the composited frame's canvas is exactly
`(width+20, height+2*bob_height+20)`; the source occupies the rectangle
whose left edge is `(canvas_width - width) div 2` and whose top edge is
`10 + bob_height - offset`, each source pixel landing there pasted over a
transparent pixel; and everywhere outside that rectangle the canvas stays
the fully transparent (zero alpha) pixel. -/
theorem create_frame_geometry (st : Animator) (img : Img) (frame_index : ℤ)
    (hn : 1 ≤ st.frame_count) (hh : 0 ≤ st.bob_height) :
    (create_frame st img frame_index).width = img.width + 20
      ∧ (create_frame st img frame_index).height
          = img.height + 2 * st.bob_height + 20
      ∧ (∀ dx dy, 0 ≤ dx → dx < img.width → 0 ≤ dy → dy < img.height →
          (create_frame st img frame_index).pix
              (Int.fdiv ((img.width + 20) - img.width) 2 + dx)
              ((10 + st.bob_height
                  - bobOffset st.frame_count st.bob_height frame_index) + dy)
            = pastePixel (img.pix dx dy) transparent)
      ∧ (∀ x y,
          ¬ (Int.fdiv ((img.width + 20) - img.width) 2 ≤ x
              ∧ x < Int.fdiv ((img.width + 20) - img.width) 2 + img.width
              ∧ 10 + st.bob_height
                  - bobOffset st.frame_count st.bob_height frame_index ≤ y
              ∧ y < (10 + st.bob_height
                  - bobOffset st.frame_count st.bob_height frame_index)
                    + img.height) →
          (create_frame st img frame_index).pix x y = transparent)
      ∧ transparent.a = 0 := by
  refine ⟨rfl, ?_, ?_, ?_, rfl⟩
  · show img.height + st.bob_height * 2 + 20 = img.height + 2 * st.bob_height + 20
    ring
  · intro dx dy hdx0 hdxw hdy0 hdyh
    show (if _ then _ else _) = _
    rw [if_pos]
    · have hx : Int.fdiv (img.width + 20 - img.width) 2 + dx
          - Int.fdiv (img.width + 20 - img.width) 2 = dx := by ring
      have hy : 10 + st.bob_height
            - bobOffset st.frame_count st.bob_height frame_index + dy
          - (10 + st.bob_height
            - bobOffset st.frame_count st.bob_height frame_index) = dy := by
        ring
      rw [hx, hy]
    · refine ⟨by omega, by omega, by omega, by omega⟩
  · intro x y hxy
    show (if _ then _ else _) = _
    rw [if_neg hxy]

theorem create_frame_geometry_witness :
    (create_frame (initAnimator 4) ⟨64, 64, fun _ _ => ⟨255, 0, 0, 255⟩⟩ 0).width
      = (64 : ℤ) + 20 :=
  (create_frame_geometry (initAnimator 4) ⟨64, 64, fun _ _ => ⟨255, 0, 0, 255⟩⟩ 0
    (by norm_num [initAnimator]) (by norm_num [initAnimator])).1

/-- Lines 116-120, `_create_frames_sequential`: loop over
`range(frame_count)` appending each composited frame to `self.frames`
(the existing list is not cleared). -/
noncomputable def create_frames_sequential (st : Animator) (img : Img) : Animator :=
  { st with frames := st.frames
      ++ List.map (fun i : ℕ => create_frame st img (i : ℤ)) (List.range st.frame_count.toNat) }

/-- Lines 122-143, `_create_frames_parallel`: submit one
`create_frame` task per index, reset `self.frames = []`, then collect the
futures in submission (index) order, appending each result. The futures
are deterministic (the compositor is pure), and a failed future is
recomputed by the same pure `create_frame`, so each slot holds
`create_frame st img i` regardless of completion order. -/
noncomputable def create_frames_parallel (st : Animator) (img : Img) : Animator :=
  { st with frames :=
      List.map (fun i : ℕ => create_frame st img (i : ℤ)) (List.range st.frame_count.toNat) }

/-- Lines 106-111 of `create_animation`: dispatch to the parallel path
when `self.use_multiprocessing and self.frame_count > 4`, otherwise to
the sequential path. -/
noncomputable def create_animation_frames (st : Animator) (img : Img) : Animator :=
  if st.use_multiprocessing = true ∧ 4 < st.frame_count
  then create_frames_parallel st img
  else create_frames_sequential st img

/-- C3: starting from an empty frame list, the sequential and the
parallel path produce the identical ordered frame list; the parallel
path reassembles results in strict index order 0..frameCount-1; and the
sequential path is taken exactly when concurrency is disabled or the
frame count is at most 4. -/
theorem frames_parallel_eq_sequential (st : Animator) (img : Img)
    (hf : st.frames = []) :
    (create_frames_sequential st img).frames
        = (create_frames_parallel st img).frames
      ∧ (create_frames_parallel st img).frames
        = List.map (fun i : ℕ => create_frame st img (i : ℤ))
            (List.range st.frame_count.toNat)
      ∧ (st.use_multiprocessing = false ∨ st.frame_count ≤ 4 →
          create_animation_frames st img = create_frames_sequential st img)
      ∧ (st.use_multiprocessing = true ∧ 4 < st.frame_count →
          create_animation_frames st img = create_frames_parallel st img) := by
  refine ⟨?_, rfl, ?_, ?_⟩
  · simp [create_frames_sequential, create_frames_parallel, hf]
  · intro hcond
    rw [create_animation_frames, if_neg]
    rcases hcond with hmp | hle
    · intro hand
      rw [hmp] at hand
      exact absurd hand.1 (by simp)
    · intro hand
      omega
  · intro hcond
    rw [create_animation_frames, if_pos hcond]

theorem frames_parallel_eq_sequential_witness :
    create_animation_frames (initAnimator 4) ⟨64, 64, fun _ _ => transparent⟩
      = create_frames_parallel (initAnimator 4) ⟨64, 64, fun _ _ => transparent⟩ :=
  (frames_parallel_eq_sequential (initAnimator 4)
      ⟨64, 64, fun _ _ => transparent⟩ rfl).2.2.2
    ⟨rfl, by norm_num [initAnimator]⟩

/-- C10: the sequential path appends the new frames after the existing
list (prior elements unchanged) while the parallel path first resets the
list; hence two full frame-generation runs leave `2 * frameCount` frames
when the sequential path is selected (concurrency disabled or
frameCount ≤ 4) starting from an empty list, but exactly `frameCount`
frames when the parallel path is selected. -/
theorem frames_list_effect (st : Animator) (img : Img) :
    (create_frames_sequential st img).frames
        = st.frames
            ++ List.map (fun i : ℕ => create_frame st img (i : ℤ))
                (List.range st.frame_count.toNat)
      ∧ (create_frames_parallel st img).frames
        = List.map (fun i : ℕ => create_frame st img (i : ℤ))
            (List.range st.frame_count.toNat)
      ∧ (st.frames = [] →
          ¬ (st.use_multiprocessing = true ∧ 4 < st.frame_count) →
          (create_animation_frames (create_animation_frames st img) img).frames.length
            = 2 * st.frame_count.toNat)
      ∧ ((st.use_multiprocessing = true ∧ 4 < st.frame_count) →
          (create_animation_frames (create_animation_frames st img) img).frames.length
            = st.frame_count.toNat) := by
  refine ⟨rfl, rfl, ?_, ?_⟩
  · intro hf hcond
    have hfirst : create_animation_frames st img = create_frames_sequential st img := by
      rw [create_animation_frames, if_neg hcond]
    have hsecond : create_animation_frames (create_frames_sequential st img) img
        = create_frames_sequential (create_frames_sequential st img) img := by
      rw [create_animation_frames, if_neg]
      simpa [create_frames_sequential] using hcond
    rw [hfirst, hsecond]
    simp [create_frames_sequential, hf]
    omega
  · intro hcond
    have hfirst : create_animation_frames st img = create_frames_parallel st img := by
      rw [create_animation_frames, if_pos hcond]
    have hsecond : create_animation_frames (create_frames_parallel st img) img
        = create_frames_parallel (create_frames_parallel st img) img := by
      rw [create_animation_frames, if_pos]
      simpa [create_frames_parallel] using hcond
    rw [hfirst, hsecond]
    simp [create_frames_parallel]

theorem frames_list_effect_witness :
    (create_animation_frames
        (create_animation_frames
          { initAnimator 4 with use_multiprocessing := false }
          ⟨64, 64, fun _ _ => transparent⟩)
        ⟨64, 64, fun _ _ => transparent⟩).frames.length
      = 2 * ((30 : ℤ)).toNat :=
  (frames_list_effect { initAnimator 4 with use_multiprocessing := false }
      ⟨64, 64, fun _ _ => transparent⟩).2.2.1
    rfl (by simp [initAnimator])

/-- Lines 214-229, `set_animation_params`: each parameter that is not
`None` is assigned to the corresponding attribute unchanged; there is no
range check and no clamping. -/
def set_animation_params (st : Animator)
    (frame_count bob_height frame_duration : Option ℤ) : Animator :=
  { st with
    frame_count := frame_count.getD st.frame_count
    bob_height := bob_height.getD st.bob_height
    frame_duration := frame_duration.getD st.frame_duration }

/-- C8 counterexample: supplying frameCount 0, bobHeight -1 and
frameDuration 0 through `set_animation_params` stores every out-of-range
value verbatim — the method is a total assignment with no error signal,
so no validation error is raised. -/
theorem set_animation_params_no_validation :
    (set_animation_params (initAnimator 4) (some 0) (some (-1)) (some 0)).frame_count
        = 0
      ∧ (set_animation_params (initAnimator 4) (some 0) (some (-1)) (some 0)).bob_height
        = -1
      ∧ (set_animation_params (initAnimator 4) (some 0) (some (-1)) (some 0)).frame_duration
        = 0 := by
  refine ⟨rfl, rfl, rfl⟩

/-- C8 (amended): `set_animation_params` silently assigns any supplied
values (in particular out-of-range ones) without validation or clamping,
keeps a field unchanged when the corresponding argument is absent, and
touches no other state (frames, performance options are preserved). -/
theorem set_animation_params_assigns (st : Animator)
    (frame_count bob_height frame_duration : Option ℤ) :
    (set_animation_params st frame_count bob_height frame_duration).frame_count
        = frame_count.getD st.frame_count
      ∧ (set_animation_params st frame_count bob_height frame_duration).bob_height
        = bob_height.getD st.bob_height
      ∧ (set_animation_params st frame_count bob_height frame_duration).frame_duration
        = frame_duration.getD st.frame_duration
      ∧ (set_animation_params st frame_count bob_height frame_duration).frames
        = st.frames
      ∧ (set_animation_params st frame_count bob_height frame_duration).use_multiprocessing
        = st.use_multiprocessing
      ∧ (set_animation_params st frame_count bob_height frame_duration).max_workers
        = st.max_workers
      ∧ (set_animation_params st none none none) = st := by
  refine ⟨rfl, rfl, rfl, rfl, rfl, rfl, rfl⟩

/-- Lines 231-248, `set_performance_options`: the three flags are
assigned unconditionally; when `max_workers` is not `None` it is stored
as `min(max_workers, multiprocessing.cpu_count())` — the cpu count is the
only cap applied here. -/
def set_performance_options (st : Animator)
    (use_multiprocessing use_numpy_acceleration optimize_gif : Bool)
    (max_workers : Option ℤ) (cpuCount : ℤ) : Animator :=
  { st with
    use_multiprocessing := use_multiprocessing
    use_numpy_acceleration := use_numpy_acceleration
    optimize_gif := optimize_gif
    max_workers :=
      match max_workers with
      | none => st.max_workers
      | some w => min w cpuCount }

/-- C9 counterexample: on a host reporting 16 hardware threads,
requesting 100 workers through `set_performance_options` stores
`min(100, 16) = 16`, which exceeds the claimed application ceiling of 8. -/
theorem max_workers_exceeds_ceiling :
    (set_performance_options (initAnimator 16) true true true (some 100) 16).max_workers
        = 16
      ∧ ¬ (set_performance_options (initAnimator 16) true true true
            (some 100) 16).max_workers ≤ 8 := by
  refine ⟨rfl, by decide⟩

/-- C9 (amended): at construction `max_workers` defaults to
`min(cpuCount, 8)`; after a call to `set_performance_options` with a
requested value the stored `max_workers` equals `min(requested, cpuCount)`
— bounded by the hardware parallelism but no longer by the ceiling of 8 —
and a call without a requested value leaves it unchanged. -/
theorem max_workers_bounds (st : Animator)
    (ump una og : Bool) (w cpuCount : ℤ) :
    (initAnimator cpuCount).max_workers = min cpuCount 8
      ∧ (set_performance_options st ump una og (some w) cpuCount).max_workers
        = min w cpuCount
      ∧ (set_performance_options st ump una og (some w) cpuCount).max_workers
        ≤ cpuCount
      ∧ (set_performance_options st ump una og none cpuCount).max_workers
        = st.max_workers := by
  exact ⟨rfl, rfl, min_le_right w cpuCount, rfl⟩

/-- The encoded output artifact handed to the container writer: either
the palette-optimized frame list or the original frames via the standard
path, each with the per-frame duration. -/
inductive SaveResult where
  | optimized (frames : List Img) (duration : ℤ)
  | standard (frames : List Img) (duration : ℤ)

/-- Lines 201-212, `_save_standard_gif`: encode the original frames with
the configured duration through the standard path. -/
def save_standard_gif (st : Animator) : SaveResult :=
  SaveResult.standard st.frames st.frame_duration

/-- Lines 159-199, `_save_optimized_gif`: the whole try-block — palette
construction from the first up to 4 frames, quantization of every frame
and the optimized encode — is modelled by the external PIL computation
`quantizeBatch`, which may fail with a message; on any failure the except
branch falls back to `_save_standard_gif` for the whole batch. -/
def save_optimized_gif (quantizeBatch : List Img → Except String (List Img))
    (st : Animator) : SaveResult :=
  match quantizeBatch st.frames with
  | Except.ok optimized_frames => SaveResult.optimized optimized_frames st.frame_duration
  | Except.error _ => save_standard_gif st

/-- Lines 145-157, `save_gif`: raise `ValueError("No frames to save")`
when the frame list is empty (modelled as `Except.error`, i.e. no
artifact is written), otherwise dispatch on `optimize_gif` to the
optimized or standard path. -/
def save_gif (quantizeBatch : List Img → Except String (List Img))
    (st : Animator) : Except String SaveResult :=
  if st.frames.isEmpty
  then Except.error "No frames to save"
  else Except.ok
    (if st.optimize_gif
     then save_optimized_gif quantizeBatch st
     else save_standard_gif st)

/-- C6: invoking the save operation on an animator whose frame list is
empty raises an error ("No frames to save") and writes no output
artifact, whatever the quantization behaviour. -/
theorem save_gif_empty_fails (quantizeBatch : List Img → Except String (List Img))
    (st : Animator) (hf : st.frames = []) :
    save_gif quantizeBatch st = Except.error "No frames to save" := by
  rw [save_gif, if_pos]
  rw [hf]
  rfl

theorem save_gif_empty_fails_witness :
    save_gif (fun fs => Except.ok fs) (initAnimator 4)
      = Except.error "No frames to save" :=
  save_gif_empty_fails (fun fs => Except.ok fs) (initAnimator 4) rfl

/-- C4: for a non-empty frame list with optimization enabled, any failure
of the palette-construction/quantization step makes the whole batch fall
back to the standard encoding of the original frames, the failure is not
raised to the caller, and the save always completes with an artifact. -/
theorem save_gif_optimization_fallback
    (quantizeBatch : List Img → Except String (List Img)) (st : Animator)
    (hne : st.frames.isEmpty = false) (ho : st.optimize_gif = true) :
    (∀ e, quantizeBatch st.frames = Except.error e →
        save_gif quantizeBatch st = Except.ok (save_standard_gif st))
      ∧ ∃ r, save_gif quantizeBatch st = Except.ok r := by
  constructor
  · intro e he
    rw [save_gif, if_neg (by rw [hne]; exact fun h => nomatch h), ho, if_pos rfl,
      save_optimized_gif, he]
  · refine ⟨if st.optimize_gif
        then save_optimized_gif quantizeBatch st
        else save_standard_gif st, ?_⟩
    rw [save_gif, if_neg (by rw [hne]; exact fun h => nomatch h)]

theorem save_gif_optimization_fallback_witness :
    save_gif (fun _ => Except.error "malformed intermediate")
        { initAnimator 4 with frames := [⟨64, 64, fun _ _ => transparent⟩] }
      = Except.ok (save_standard_gif
          { initAnimator 4 with frames := [⟨64, 64, fun _ _ => transparent⟩] }) :=
  (save_gif_optimization_fallback (fun _ => Except.error "malformed intermediate")
      { initAnimator 4 with frames := [⟨64, 64, fun _ _ => transparent⟩] }
      rfl rfl).1 "malformed intermediate" rfl

/-- Ways `PIL.Image.open` fails on the loader's path: a path that does
not resolve to a file, or bytes that cannot be decoded as an image. -/
inductive PILError where
  | fileNotFound
  | unidentifiedImage
deriving DecidableEq

/-- Message text carried by the underlying PIL exception. -/
def pilErrMsg : PILError → String
  | PILError.fileNotFound => "No such file or directory"
  | PILError.unidentifiedImage => "cannot identify image file"

/-- Kinds of error the spec's taxonomy names for the loader, next to the
single kind the code actually raises. -/
inductive PyErrKind where
  | valueErrorKind
  | sourceNotFoundKind
  | unsupportedFormatKind
deriving DecidableEq

/-- A PIL image before normalization: its mode string plus its RGBA
pixel view (the view PIL exposes after conversion). -/
structure RawImage where
  mode : String
  width : ℤ
  height : ℤ
  pix : ℤ → ℤ → RGBA

/-- PIL `img.convert('RGBA')`: re-tags the mode as RGBA; pixel content is
already modelled as the RGBA view, fully opaque fill when the source had
no alpha. -/
def convertRGBA (img : RawImage) : RawImage := { img with mode := "RGBA" }

/-- Lines 60-68, `load_png`: `Image.open` is modelled by its outcome
`opened`; on success the image is converted to RGBA unless already RGBA;
every exception is caught and re-raised as
`ValueError("Error loading PNG file: " + message)` — one error kind for
both failure causes. -/
def load_png (opened : Except PILError RawImage) :
    Except (PyErrKind × String) RawImage :=
  match opened with
  | Except.ok img =>
      Except.ok (if img.mode = "RGBA" then img else convertRGBA img)
  | Except.error e =>
      Except.error (PyErrKind.valueErrorKind, "Error loading PNG file: " ++ pilErrMsg e)

/-- Helper projecting the error kind of a load result, `none` on
success. -/
def loadErrKind (r : Except (PyErrKind × String) RawImage) : Option PyErrKind :=
  match r with
  | Except.error ke => some ke.1
  | Except.ok _ => none

/-- C7 counterexample: a non-resolving path and undecodable bytes both
make `load_png` raise the same kind of error — a plain ValueError — so
neither a distinct SourceNotFound nor a distinct UnsupportedFormat is
raised, contrary to the claim. -/
theorem load_png_single_error_kind :
    loadErrKind (load_png (Except.error PILError.fileNotFound))
        = some PyErrKind.valueErrorKind
      ∧ loadErrKind (load_png (Except.error PILError.unidentifiedImage))
        = some PyErrKind.valueErrorKind
      ∧ PyErrKind.valueErrorKind ≠ PyErrKind.sourceNotFoundKind
      ∧ PyErrKind.valueErrorKind ≠ PyErrKind.unsupportedFormatKind := by
  refine ⟨rfl, rfl, by decide, by decide⟩

/-- C7 (amended): both loader failure modes — unresolved path and
undecodable bytes — surface as one and the same ValueError kind, wrapping
the underlying message behind the prefix "Error loading PNG file: "; for
every decodable image the loader returns an RGBA-mode image, converting
exactly when the native mode differs and returning the image unchanged
when it is already RGBA. -/
theorem load_png_spec :
    (∀ e : PILError,
        load_png (Except.error e)
          = Except.error
              (PyErrKind.valueErrorKind, "Error loading PNG file: " ++ pilErrMsg e))
      ∧ (∀ img : RawImage, ∃ out : RawImage,
          load_png (Except.ok img) = Except.ok out
            ∧ out.mode = "RGBA"
            ∧ (img.mode = "RGBA" → out = img)) := by
  constructor
  · intro e
    rfl
  · intro img
    by_cases hm : img.mode = "RGBA"
    · exact ⟨img, by rw [load_png, if_pos hm], hm, fun _ => rfl⟩
    · refine ⟨convertRGBA img, by rw [load_png, if_neg hm], rfl, fun h => absurd h hm⟩

theorem load_png_spec_witness :
    ∃ out : RawImage,
      load_png (Except.ok ⟨"RGB", 64, 64, fun _ _ => ⟨0, 0, 0, 255⟩⟩)
          = Except.ok out
        ∧ out.mode = "RGBA"
        ∧ ((⟨"RGB", 64, 64, fun _ _ => ⟨0, 0, 0, 255⟩⟩ : RawImage).mode = "RGBA"
            → out = ⟨"RGB", 64, 64, fun _ _ => ⟨0, 0, 0, 255⟩⟩) :=
  load_png_spec.2 ⟨"RGB", 64, 64, fun _ _ => ⟨0, 0, 0, 255⟩⟩
